import Mathlib

/-!
Verification of the ECS runtime (`src/ecs/engine.ts`, `src/ecs/component.ts`)
against its natural-language specification.

Shallow embedding notes:
* The `System` class (`engine.ts`, second half) carries a mutable `priority`
  and an attachment list; the `Engine` owns entity / listener / system /
  blueprint lists.  JavaScript object references are modelled by numeric ids;
  `Array.prototype.indexOf` membership tests become decidable list membership
  on those ids.
* `Array.prototype.sort` with the comparator `(a, b) => a.priority - b.priority`
  is a stable ascending sort (ES2019 requires sort stability); a stable sort is
  uniquely determined by the key order, so it is embedded as Mathlib's stable
  `List.insertionSort` over `priority`.
* `entity-factory.ts` and `entity.ts` are referenced by the Engine but are not
  among the sources; their behaviour is modelled from the spec (see the
  doc comments below starting with "Modelled from the spec").
* The `for (let system of this._systems)` loop in `Engine.update` iterates the
  live array (the ES array iterator re-checks the current length each step);
  it is embedded as an index-based loop over the current state, with a fuel
  parameter to make the recursion total.
-/

namespace ECS

/-- One `System` object as seen by an Engine: its reference identity (`id`)
and the value of its `_priority` field (`engine.ts` line 235). -/
structure Sys where
  id : Nat
  priority : Int
deriving DecidableEq, Repr

/-- A JavaScript primitive value as stored in a blueprint-type enumeration
object (TypeScript enums map member names to numbers or strings, and numeric
enums additionally reverse-map values to names). -/
inductive JsVal where
  | str (s : String)
  | num (n : Int)
deriving DecidableEq, Repr

/-- JavaScript truthiness of an enum value: `""` and `0` are falsy.
`Engine.buildEntity` tests `!this.blueprintTypes[type]` (engine.ts line 56). -/
def JsVal.truthy : JsVal → Bool
  | .str s => s ≠ ""
  | .num n => n ≠ 0

/-- String coercion of an enum value, used when the looked-up value is passed
on as the blueprint name. -/
def JsVal.asName : JsVal → String
  | .str s => s
  | .num n => toString n

/-- One `BlueprintComponent` (component.ts `BlueprintComponent`): the
component class, identified by its stable name, plus the optional `values`
override payload.  The payload is abstracted to an `Option Int` (its concrete
shape is `any` in the source and out of core scope): `none` stands for the
default instance produced by the ComponentClass factory, `some v` for a
values-assigned instance. -/
structure BlueprintComponent where
  component : String
  values : Option Int
deriving DecidableEq, Repr

/-- A `Blueprint` (component.ts `Blueprint`): a name, an ordered component
list and an ordered list of parent blueprint names. -/
structure Blueprint where
  name : String
  components : List BlueprintComponent
  blueprints : List String
deriving DecidableEq, Repr

/-- An `Entity`'s component map: component-name to instance payload, at most
one instance per name.  Modelled from the spec: `entity.ts` is referenced by
the Engine but absent from the sources; spec section 4.1 gives `putComponent`
replace semantics and name-keyed lookup. -/
abbrev Entity := List (String × Option Int)

/-- Modelled from the spec: `putComponent` overwrites any existing instance of
the same name, otherwise appends (spec section 4.1). -/
def putComponent (e : Entity) (c : String × Option Int) : Entity :=
  if e.any (fun p => p.1 == c.1) then e.map (fun p => if p.1 == c.1 then c else p)
  else e ++ [c]

/-- Modelled from the spec: `getComponent` on an absent name is an explicit
`none` (spec section 4.1). -/
def getComponent (e : Entity) (n : String) : Option (Option Int) :=
  (e.find? (fun p => p.1 == n)).map Prod.snd

/-- Failure conditions of entity construction (spec section 7), plus
`outOfFuel`, an artifact of the fuelled embedding of the factory's recursion,
and `notStarted`, the TypeError raised when `buildEntity` runs before `start`
left `entityFactory` undefined. -/
inductive BuildError where
  | invalidBlueprintType (key : String)
  | unknownBlueprint (name : String)
  | cyclicBlueprintInheritance (name : String)
  | outOfFuel
  | notStarted
deriving DecidableEq, Repr

/-- Look a blueprint up by name in a registry (first match, as a JS
name-indexed lookup would find the registered one). -/
def findBlueprint (reg : List Blueprint) (n : String) : Option Blueprint :=
  reg.find? (fun b => b.name == n)

/-- Modelled from the spec: the resolution algorithm of `entity-factory.ts`,
which is absent from the sources.  Spec section 4.5: resolve parent blueprint
names first, depth-first in the order listed, applying each parent's own
component list before the child's; a name already on the current resolution
path (`visiting`) fails with `CyclicBlueprintInheritance`; an unregistered
reference fails with `UnknownBlueprint`; all-or-nothing.  `fuel` bounds the
recursion so the definition is total; the cycle-detection theorems quantify
over the fuel to show the errors are not fuel artifacts. -/
def resolveNames (reg : List Blueprint) : Nat → List String → List String →
    Except BuildError (List BlueprintComponent)
  | 0, _, _ => .error .outOfFuel
  | Nat.succ fuel, visiting, names =>
    match names with
    | [] => .ok []
    | name :: rest =>
      if name ∈ visiting then .error (.cyclicBlueprintInheritance name)
      else
        match findBlueprint reg name with
        | none => .error (.unknownBlueprint name)
        | some bp =>
          match resolveNames reg fuel (name :: visiting) bp.blueprints with
          | .error e => .error e
          | .ok ps =>
            match resolveNames reg fuel visiting rest with
            | .error e => .error e
            | .ok rs => .ok (ps ++ bp.components ++ rs)

/-- Modelled from the spec: instantiate the flattened component list onto a
fresh entity in order, with `putComponent` replace semantics (spec
section 4.5: last-write-wins per component name). -/
def buildFromComponents (cs : List BlueprintComponent) : Entity :=
  cs.foldl (fun e c => putComponent e (c.component, c.values)) []

/-- Modelled from the spec: `EntityFactory.buildEntity` resolves the named
blueprint's whole inheritance chain, then materialises the entity.  The fuel
`reg.length + 1` is an embedding artifact (the resolution depth is bounded by
the `visiting` path, which only grows through registered names). -/
def factoryBuild (reg : List Blueprint) (name : String) : Except BuildError Entity :=
  match resolveNames reg (reg.length + 1) [] [name] with
  | .error e => .error e
  | .ok cs => .ok (buildFromComponents cs)

/-- A listener notification fired by `Engine.addEntity` / `Engine.removeEntity`
(engine.ts lines 109-111, 150-152): which listener was called with which
entity, in call order. -/
inductive Event where
  | added (l : Nat) (e : Nat)
  | removed (l : Nat) (e : Nat)
deriving DecidableEq, Repr

/-- The state of one `Engine` object (engine.ts lines 17-33): entity list,
entity-listener list, system list, the sort-needed flag, the blueprint
registry, the optional blueprint-type enumeration and the optional
EntityFactory (present after `start`, holding its blueprint snapshot).
Entities and listeners are identified by numeric ids standing for JS object
references. -/
structure EngineSt where
  entities : List Nat
  entityListeners : List Nat
  systems : List Sys
  systemsNeedSorting : Bool
  blueprints : List Blueprint
  blueprintTypes : Option (List (String × JsVal))
  entityFactory : Option (List Blueprint)
deriving DecidableEq, Repr

namespace Engine

/-- The Engine constructor (engine.ts lines 40-43): all collections empty,
flag clear, factory not yet built. -/
def mkEngine (bts : Option (List (String × JsVal))) : EngineSt :=
  ⟨[], [], [], false, [], bts, none⟩

/-- `Engine.start` (engine.ts lines 45-47) builds the EntityFactory over the
currently registered blueprints.  That the factory is a snapshot (unaffected
by later registry growth) is the spec-modelled part: the missing
`entity-factory.ts` constructor is specified to snapshot the registry
(spec section 3). -/
def start (st : EngineSt) : EngineSt :=
  { st with entityFactory := some st.blueprints }

/-- Lookup in the blueprint-type enumeration object (property access
`this.blueprintTypes[type]`; JS property keys are strings, numeric keys
coerce to their decimal string). -/
def lookupEnum (et : List (String × JsVal)) (key : String) : Option JsVal :=
  (et.find? (fun p => p.1 == key)).map Prod.snd

/-- `Engine.buildEntity` (engine.ts lines 54-63): when an enumeration was
supplied, `if(!this.blueprintTypes[type])` throws `Invalid blueprint type`
on an undefined or falsy lookup; otherwise the looked-up value replaces the
key and is passed to the EntityFactory.  With no enumeration the key goes to
the factory directly. -/
def buildEntity (st : EngineSt) (key : String) : Except BuildError Entity :=
  match st.blueprintTypes with
  | some et =>
    match lookupEnum et key with
    | none => .error (.invalidBlueprintType key)
    | some v =>
      if v.truthy then
        match st.entityFactory with
        | none => .error .notStarted
        | some reg => factoryBuild reg v.asName
      else .error (.invalidBlueprintType key)
  | none =>
    match st.entityFactory with
    | none => .error .notStarted
    | some reg => factoryBuild reg key

/-- `Engine.addEntity` (engine.ts lines 106-114): push and notify every
listener in registration order unless the reference is already present. -/
def addEntity (st : EngineSt) (e : Nat) : EngineSt × List Event :=
  if e ∈ st.entities then (st, [])
  else ({ st with entities := st.entities ++ [e] },
        st.entityListeners.map (fun l => Event.added l e))

/-- `Engine.removeEntity` (engine.ts lines 146-154): splice out the first
occurrence and notify every listener, or do nothing when absent. -/
def removeEntity (st : EngineSt) (e : Nat) : EngineSt × List Event :=
  if e ∈ st.entities then
    ({ st with entities := st.entities.erase e },
     st.entityListeners.map (fun l => Event.removed l e))
  else (st, [])

/-- `Engine.addEntityListener` (engine.ts lines 82-87). -/
def addEntityListener (st : EngineSt) (l : Nat) : EngineSt :=
  if l ∈ st.entityListeners then st
  else { st with entityListeners := st.entityListeners ++ [l] }

/-- `Engine.removeEntityListener` (engine.ts lines 93-99): splice out the
first occurrence if present. -/
def removeEntityListener (st : EngineSt) (l : Nat) : EngineSt :=
  { st with entityListeners := st.entityListeners.erase l }

/-- `Engine.addBlueprint` (engine.ts lines 129-135): push unless already
present (JS reference identity, modelled as value identity of the record). -/
def addBlueprint (st : EngineSt) (bp : Blueprint) : EngineSt :=
  if bp ∈ st.blueprints then st
  else { st with blueprints := st.blueprints ++ [bp] }

/-- `Engine.addSystem` (engine.ts lines 172-180): push, attach, and mark the
sort-needed flag, unless the reference is already present. -/
def addSystem (st : EngineSt) (s : Sys) : EngineSt :=
  if st.systems.any (fun t => t.id == s.id) then st
  else { st with systems := st.systems ++ [s], systemsNeedSorting := true }

/-- `Engine.removeSystem` (engine.ts lines 196-203): splice out the first
occurrence if present; the flag is not touched. -/
def removeSystem (st : EngineSt) (sid : Nat) : EngineSt :=
  if st.systems.any (fun t => t.id == sid) then
    { st with systems := st.systems.eraseP (fun t => t.id == sid) }
  else st

/-- `Engine.notifyPriorityChange` (engine.ts lines 74-76): set the sort-needed
flag, nothing else. -/
def notifyPriorityChange (st : EngineSt) : EngineSt :=
  { st with systemsNeedSorting := true }

end Engine

/-- The `System.priority` setter (engine.ts lines 251-256), as observed by one
engine: the system's `_priority` field is written, and every attached engine
is notified.  An engine is attached to the system exactly when the system is
in its `_systems` list (`onAttach`/`onDetach` are invoked exclusively by
`addSystem`/`removeSystem`); for an engine holding the system this updates the
stored priority and sets the flag, for any other engine its state is
untouched. -/
def System.setPriority (st : EngineSt) (sid : Nat) (p : Int) : EngineSt :=
  if st.systems.any (fun t => t.id == sid) then
    Engine.notifyPriorityChange
      { st with systems :=
          st.systems.map (fun t => if t.id == sid then { t with priority := p } else t) }
  else st

/-- Ascending priority order, the comparator `(a, b) => a.priority - b.priority`
of engine.ts line 222. -/
def sysLe (a b : Sys) : Prop := a.priority ≤ b.priority

instance : DecidableRel sysLe := fun a b => inferInstanceAs (Decidable (a.priority ≤ b.priority))

instance : IsTotal Sys sysLe := ⟨fun a b => Int.le_total a.priority b.priority⟩

instance : IsTrans Sys sysLe := ⟨fun _ _ _ h₁ h₂ => le_trans h₁ h₂⟩

namespace Engine

/-- The system list `update` will iterate: sorted when the flag is set,
as-is otherwise (engine.ts lines 220-223). -/
def tickSystems (st : EngineSt) : List Sys :=
  if st.systemsNeedSorting then List.insertionSort sysLe st.systems else st.systems

/-- The `for (let system of this._systems)` loop of `Engine.update`
(engine.ts lines 224-226).  The ES array iterator keeps an index and
re-checks it against the array's current length each step, so the loop reads
the live list: `behave sid` is the effect of system `sid`'s `update(engine,
delta)` callback on the engine state, and the next element is fetched from
the state that callback produced.  Returns the ids in invocation order and
the final state.  `fuel` totalises the recursion (a callback that keeps
appending would make the JS loop run forever). -/
def updateLoop (behave : Nat → EngineSt → EngineSt) :
    Nat → Nat → EngineSt → List Nat × EngineSt
  | 0, _, st => ([], st)
  | Nat.succ fuel, i, st =>
    match st.systems[i]? with
    | none => ([], st)
    | some s =>
      let r := updateLoop behave fuel (i + 1) (behave s.id st)
      (s.id :: r.1, r.2)

/-- `Engine.update` (engine.ts lines 219-227) with explicit system callback
effects: if the flag is set, clear it and stable-sort the list, then run the
iteration loop. -/
def updateWith (behave : Nat → EngineSt → EngineSt) (fuel : Nat) (st : EngineSt) :
    List Nat × EngineSt :=
  updateLoop behave fuel 0
    (if st.systemsNeedSorting then
      { st with systems := List.insertionSort sysLe st.systems, systemsNeedSorting := false }
     else st)

/-- `Engine.update` when the system callbacks do not mutate the engine
(inert behaviours); the fuel `length + 1` is then exactly enough for the
loop to visit every system once. -/
def update (st : EngineSt) : List Nat × EngineSt :=
  updateWith (fun _ t => t) (st.systems.length + 1) st

end Engine

/-! ### Helper lemmas -/

/-- With callbacks that do not touch the engine, the update loop visits every
system from index `i` on, once, in list order, given enough fuel. -/
theorem updateLoop_inert (fuel : Nat) : ∀ (i : Nat) (st : EngineSt),
    st.systems.length ≤ i + fuel →
    Engine.updateLoop (fun _ t => t) fuel i st = ((st.systems.drop i).map Sys.id, st) := by
  induction fuel with
  | zero =>
    intro i st h
    have hd : st.systems.drop i = [] := List.drop_eq_nil_of_le (by omega)
    simp [Engine.updateLoop, hd]
  | succ fuel ih =>
    intro i st h
    cases hg : st.systems[i]? with
    | none =>
      have hlen : st.systems.length ≤ i := by
        by_contra hc
        rw [List.getElem?_eq_getElem (by omega)] at hg
        exact Option.noConfusion hg
      have hd : st.systems.drop i = [] := List.drop_eq_nil_of_le hlen
      simp [Engine.updateLoop, hg, hd]
    | some s =>
      obtain ⟨hlt, hget⟩ := List.getElem?_eq_some.mp hg
      have hdrop : st.systems.drop i = s :: st.systems.drop (i + 1) := by
        rw [List.drop_eq_getElem_cons hlt, hget]
      have hrec := ih (i + 1) st (by omega)
      simp [Engine.updateLoop, hg, hdrop, hrec]

/-- `Engine.update` in closed form: the invocation order is the tick list
(sorted when the flag was set), the stored list becomes the tick list, and
the flag is cleared. -/
theorem update_eq (st : EngineSt) :
    Engine.update st =
      ((Engine.tickSystems st).map Sys.id,
       { st with systems := Engine.tickSystems st, systemsNeedSorting := false }) := by
  unfold Engine.update Engine.updateWith Engine.tickSystems
  by_cases h : st.systemsNeedSorting
  · rw [if_pos h, if_pos h]
    exact updateLoop_inert _ 0 _ (by simp [List.length_insertionSort])
  · rw [if_neg h, if_neg h]
    rw [updateLoop_inert _ 0 st (by omega)]
    have hf : st.systemsNeedSorting = false := by simpa using h
    cases st
    simp_all

/-- `orderedInsert` preserves the per-priority fibres: the inserted element is
prepended to its own fibre (it goes in front of every element of equal
priority already present), all other fibres are untouched. -/
theorem filter_priority_orderedInsert (p : Int) (a : Sys) (l : List Sys) :
    (List.orderedInsert sysLe a l).filter (fun t => t.priority == p) =
      if a.priority == p then a :: l.filter (fun t => t.priority == p)
      else l.filter (fun t => t.priority == p) := by
  induction l with
  | nil => simp [List.filter_cons]
  | cons b l ih =>
    by_cases hab : sysLe a b
    · rw [List.orderedInsert_of_le _ _ hab]
      simp [List.filter_cons]
    · simp only [List.orderedInsert, if_neg hab, List.filter_cons]
      by_cases hap : a.priority = p
      · have hbp : ¬b.priority = p := fun hbp => hab (by simp [sysLe, hap, hbp])
        simp [hap, hbp, ih]
      · by_cases hbp : b.priority = p <;> simp [hap, hbp, ih]

/-- Stability of the embedded sort: sorting does not change the relative
order of systems of equal priority (each per-priority fibre of the output is
exactly the fibre of the input). -/
theorem filter_priority_insertionSort (p : Int) (l : List Sys) :
    (List.insertionSort sysLe l).filter (fun t => t.priority == p) =
      l.filter (fun t => t.priority == p) := by
  induction l with
  | nil => rfl
  | cons a l ih =>
    simp only [List.insertionSort, filter_priority_orderedInsert, ih, List.filter_cons]

/-- Engine states reachable through the public operations of `engine.ts`,
starting from a freshly constructed engine.  A System `update` callback that
mutates the engine mid-tick does so through these same public operations
(spec section 5), so the states it can produce are covered by these
constructors as well: `tick` contributes the sort-and-clear transition at the
head of `Engine.update`, and any callback effects are further constructor
applications on top of it. -/
inductive Reachable : EngineSt → Prop where
  | init (bts : Option (List (String × JsVal))) : Reachable (Engine.mkEngine bts)
  | addEntity {st : EngineSt} (e : Nat) : Reachable st → Reachable (Engine.addEntity st e).1
  | removeEntity {st : EngineSt} (e : Nat) : Reachable st → Reachable (Engine.removeEntity st e).1
  | addEntityListener {st : EngineSt} (l : Nat) :
      Reachable st → Reachable (Engine.addEntityListener st l)
  | removeEntityListener {st : EngineSt} (l : Nat) :
      Reachable st → Reachable (Engine.removeEntityListener st l)
  | addBlueprint {st : EngineSt} (bp : Blueprint) :
      Reachable st → Reachable (Engine.addBlueprint st bp)
  | start {st : EngineSt} : Reachable st → Reachable (Engine.start st)
  | addSystem {st : EngineSt} (s : Sys) : Reachable st → Reachable (Engine.addSystem st s)
  | removeSystem {st : EngineSt} (sid : Nat) : Reachable st → Reachable (Engine.removeSystem st sid)
  | setPriority {st : EngineSt} (sid : Nat) (p : Int) :
      Reachable st → Reachable (System.setPriority st sid p)
  | tick {st : EngineSt} : Reachable st → Reachable (Engine.update st).2

/-- The central sorting invariant: every operation that can disturb the
priority order of the system list also sets the sort-needed flag, so whenever
the flag is clear the stored list is already sorted ascending by priority. -/
theorem sorted_of_flag_clear {st : EngineSt} (hr : Reachable st) :
    st.systemsNeedSorting = false → List.Sorted sysLe st.systems := by
  induction hr with
  | init bts => exact fun _ => List.sorted_nil
  | addEntity e _ ih =>
    simp only [Engine.addEntity]; split <;> exact ih
  | removeEntity e _ ih =>
    simp only [Engine.removeEntity]; split <;> exact ih
  | addEntityListener l _ ih =>
    simp only [Engine.addEntityListener]; split <;> exact ih
  | removeEntityListener l _ ih => exact ih
  | addBlueprint bp _ ih =>
    simp only [Engine.addBlueprint]; split <;> exact ih
  | start _ ih => exact ih
  | addSystem s _ ih =>
    simp only [Engine.addSystem]
    split
    · exact ih
    · intro h; simp at h
  | removeSystem sid _ ih =>
    simp only [Engine.removeSystem]
    split
    · intro h
      exact List.Pairwise.sublist (List.eraseP_sublist _) (ih h)
    · exact ih
  | setPriority sid p _ ih =>
    simp only [System.setPriority, Engine.notifyPriorityChange]
    split
    · intro h; simp at h
    · exact ih
  | tick _ ih =>
    rw [update_eq]
    intro _
    unfold Engine.tickSystems
    split
    · exact List.sorted_insertionSort sysLe _
    · next hflag => exact ih (by simpa using hflag)

/-- The heap model for the `entities` getter: JavaScript arrays live in a
store and are addressed by references (indices); the engine's `_entities`
array sits at one such reference.  This refines the reference/aliasing aspect
of engine.ts that the pure `EngineSt` model cannot express. -/
abbrev Heap := List (List Nat)

/-- Dereference an array; a dangling reference reads as empty (never exercised
by the theorems, which require a valid reference). -/
def readArr (h : Heap) (r : Nat) : List Nat := h.getD r []

/-- The `entities` getter (engine.ts lines 67-69):
`Object.freeze(this._entities.slice(0))` allocates a fresh array holding a
copy of the current contents and returns (a reference to) it; the freeze
makes the snapshot read-only, which the model reflects by nothing ever
writing through a snapshot reference. -/
def entitiesSnapshot (h : Heap) (r : Nat) : Heap × Nat :=
  (h ++ [readArr h r], h.length)

/-- `Engine.addEntity`'s mutation as seen by the heap (engine.ts lines
106-114): push onto the engine's own array, in place, unless the entity is
already present. -/
def addEntityHeap (h : Heap) (r : Nat) (e : Nat) : Heap :=
  if e ∈ readArr h r then h else h.set r (readArr h r ++ [e])

/-! ### Claim theorems -/

/-- Claim C9: calling `removeEntity` on an Entity not in the engine's entity
set is a no-op: the entity set, system set, listener set and blueprint
registry are all unchanged, and zero removal notifications are fired. -/
theorem removeEntity_absent_noop (st : EngineSt) (e : Nat) (he : e ∉ st.entities) :
    (Engine.removeEntity st e).1.entities = st.entities ∧
    (Engine.removeEntity st e).1.systems = st.systems ∧
    (Engine.removeEntity st e).1.entityListeners = st.entityListeners ∧
    (Engine.removeEntity st e).1.blueprints = st.blueprints ∧
    (Engine.removeEntity st e).2 = [] := by
  simp [Engine.removeEntity, he]

theorem removeEntity_absent_noop_witness :
    (Engine.removeEntity ⟨[1, 2], [7], [], false, [], none, none⟩ 3).1.entities = [1, 2] ∧
    (Engine.removeEntity ⟨[1, 2], [7], [], false, [], none, none⟩ 3).1.systems = [] ∧
    (Engine.removeEntity ⟨[1, 2], [7], [], false, [], none, none⟩ 3).1.entityListeners = [7] ∧
    (Engine.removeEntity ⟨[1, 2], [7], [], false, [], none, none⟩ 3).1.blueprints = [] ∧
    (Engine.removeEntity ⟨[1, 2], [7], [], false, [], none, none⟩ 3).2 = [] :=
  removeEntity_absent_noop ⟨[1, 2], [7], [], false, [], none, none⟩ 3 (by decide)

/-- Claim C6: adding the same Entity reference twice leaves exactly one entry
for it in the entity list; the first (actual) add fires exactly one
`onEntityAdded` notification per registered listener, in listener-registration
order, and the duplicate add fires none. -/
theorem addEntity_idempotent (st : EngineSt) (e : Nat) (he : e ∉ st.entities) :
    (Engine.addEntity (Engine.addEntity st e).1 e).1.entities.count e = 1 ∧
    (Engine.addEntity st e).2 = st.entityListeners.map (fun l => Event.added l e) ∧
    (Engine.addEntity (Engine.addEntity st e).1 e).2 = [] := by
  have h1 : (Engine.addEntity st e).1 = { st with entities := st.entities ++ [e] } := by
    simp [Engine.addEntity, he]
  have hc : st.entities.count e = 0 := List.count_eq_zero.mpr he
  have houter : Engine.addEntity { st with entities := st.entities ++ [e] } e =
      ({ st with entities := st.entities ++ [e] }, []) := by
    unfold Engine.addEntity
    rw [if_pos (by simp)]
  refine ⟨?_, by simp [Engine.addEntity, he], ?_⟩
  · rw [h1, houter]
    simp [List.count_append, hc]
  · rw [h1, houter]

theorem addEntity_idempotent_witness :
    (Engine.addEntity (Engine.addEntity ⟨[], [4, 9], [], false, [], none, none⟩ 5).1 5).1.entities.count 5 = 1 ∧
    (Engine.addEntity ⟨[], [4, 9], [], false, [], none, none⟩ 5).2 =
      [4, 9].map (fun l => Event.added l 5) ∧
    (Engine.addEntity (Engine.addEntity ⟨[], [4, 9], [], false, [], none, none⟩ 5).1 5).2 = [] :=
  addEntity_idempotent ⟨[], [4, 9], [], false, [], none, none⟩ 5 (by decide)

/-- Claim C7: writing a System's priority immediately notifies each engine the
system is attached to (every engine holding it in its list), setting the
sort-needed flag; no immediate sort happens (the stored order is untouched);
and the next `update` re-sorts before executing any system: its invocation
order is exactly that of the freshly priority-sorted list. -/
theorem priority_write_defers_sort (st : EngineSt) (s : Sys) (hs : s ∈ st.systems) (p : Int) :
    (System.setPriority st s.id p).systemsNeedSorting = true ∧
    (System.setPriority st s.id p).systems.map Sys.id = st.systems.map Sys.id ∧
    (Engine.update (System.setPriority st s.id p)).1 =
      (List.insertionSort sysLe (System.setPriority st s.id p).systems).map Sys.id := by
  have hany : st.systems.any (fun t => t.id == s.id) = true :=
    List.any_eq_true.mpr ⟨s, hs, by simp⟩
  have hset : System.setPriority st s.id p =
      { st with
          systems := st.systems.map (fun t => if t.id == s.id then { t with priority := p } else t),
          systemsNeedSorting := true } := by
    simp [System.setPriority, Engine.notifyPriorityChange, hany]
  refine ⟨by rw [hset], ?_, ?_⟩
  · rw [hset]
    simp only [List.map_map]
    apply List.map_congr_left
    intro t _
    by_cases h : t.id == s.id <;> simp [Function.comp, h]
  · rw [update_eq]
    unfold Engine.tickSystems
    rw [if_pos (by rw [hset])]

theorem priority_write_defers_sort_witness :
    (System.setPriority ⟨[], [], [⟨1, 0⟩, ⟨2, 3⟩], false, [], none, none⟩ 1 (-5)).systemsNeedSorting = true ∧
    (System.setPriority ⟨[], [], [⟨1, 0⟩, ⟨2, 3⟩], false, [], none, none⟩ 1 (-5)).systems.map Sys.id =
      ([⟨1, 0⟩, ⟨2, 3⟩] : List Sys).map Sys.id ∧
    (Engine.update (System.setPriority ⟨[], [], [⟨1, 0⟩, ⟨2, 3⟩], false, [], none, none⟩ 1 (-5))).1 =
      (List.insertionSort sysLe
        (System.setPriority ⟨[], [], [⟨1, 0⟩, ⟨2, 3⟩], false, [], none, none⟩ 1 (-5)).systems).map Sys.id :=
  priority_write_defers_sort ⟨[], [], [⟨1, 0⟩, ⟨2, 3⟩], false, [], none, none⟩ ⟨1, 0⟩ (by decide) (-5)

/-- Claim C8: `entities` returns a read-only point-in-time snapshot: a
snapshot taken before `addEntity` does not contain the later-added entity and
is not retroactively altered by the mutation, even though the engine's own
(live) array does change. -/
theorem entities_snapshot_immutable (h : Heap) (r e : Nat)
    (hr : r < h.length) (he : e ∉ readArr h r) :
    readArr (addEntityHeap (entitiesSnapshot h r).1 r e) (entitiesSnapshot h r).2 = readArr h r ∧
    e ∉ readArr (addEntityHeap (entitiesSnapshot h r).1 r e) (entitiesSnapshot h r).2 ∧
    e ∈ readArr (addEntityHeap (entitiesSnapshot h r).1 r e) r := by
  have hread1 : readArr (h ++ [readArr h r]) r = readArr h r := by
    unfold readArr
    simp [List.getD, List.getElem?_append, hr]
  have hstep : addEntityHeap (entitiesSnapshot h r).1 r e =
      (h ++ [readArr h r]).set r (readArr h r ++ [e]) := by
    unfold addEntityHeap entitiesSnapshot
    rw [hread1, if_neg he]
  have hrne : r ≠ h.length := Nat.ne_of_lt hr
  have hsnap : readArr ((h ++ [readArr h r]).set r (readArr h r ++ [e])) h.length = readArr h r := by
    unfold readArr
    simp [List.getD, List.getElem?_set_ne hrne, List.getElem?_concat_length]
  have hlive : readArr ((h ++ [readArr h r]).set r (readArr h r ++ [e])) r = readArr h r ++ [e] := by
    unfold readArr
    have hlt : r < (h ++ [h.getD r []]).length := by
      rw [List.length_append]; omega
    rw [List.getD_eq_getElem?_getD, List.getElem?_set_eq_of_lt _ hlt]
    rfl
  have hsnapref : (entitiesSnapshot h r).2 = h.length := rfl
  refine ⟨?_, ?_, ?_⟩
  · rw [hstep, hsnapref]; exact hsnap
  · rw [hstep, hsnapref, hsnap]; exact he
  · rw [hstep, hlive]; simp

theorem entities_snapshot_immutable_witness :
    readArr (addEntityHeap (entitiesSnapshot [[1, 2]] 0).1 0 3) (entitiesSnapshot [[1, 2]] 0).2 =
      readArr [[1, 2]] 0 ∧
    3 ∉ readArr (addEntityHeap (entitiesSnapshot [[1, 2]] 0).1 0 3) (entitiesSnapshot [[1, 2]] 0).2 ∧
    3 ∈ readArr (addEntityHeap (entitiesSnapshot [[1, 2]] 0).1 0 3) 0 :=
  entities_snapshot_immutable [[1, 2]] 0 3 (by decide) (by decide)

/-- Claim C10: `Engine.update` iterates the live system list rather than a
tick-start snapshot: when the single attached system's callback adds a new
system via `addSystem`, the added system's update is invoked later in the
same tick (the invocation list contains both ids). -/
theorem midtick_added_system_runs (a b : Sys) (ents ls : List Nat)
    (bps : List Blueprint) (bts : Option (List (String × JsVal)))
    (fac : Option (List Blueprint)) (hid : b.id ≠ a.id) :
    (Engine.updateWith (fun sid t => if sid == a.id then Engine.addSystem t b else t) 3
      ⟨ents, ls, [a], false, bps, bts, fac⟩).1 = [a.id, b.id] := by
  have h1 : (a.id == b.id) = false := beq_eq_false_iff_ne.mpr (Ne.symm hid)
  have h2 : (b.id == a.id) = false := beq_eq_false_iff_ne.mpr hid
  simp [Engine.updateWith, Engine.updateLoop, Engine.addSystem, h1, h2]

theorem midtick_added_system_runs_witness :
    (Engine.updateWith (fun sid t => if sid == (⟨1, 0⟩ : Sys).id then Engine.addSystem t ⟨2, 0⟩ else t) 3
      ⟨[], [], [⟨1, 0⟩], false, [], none, none⟩).1 = [(⟨1, 0⟩ : Sys).id, (⟨2, 0⟩ : Sys).id] :=
  midtick_added_system_runs ⟨1, 0⟩ ⟨2, 0⟩ [] [] [] none none (by decide)

/-- Claim C1: within any tick of a reachable engine, `update` first
stable-sorts the system list ascending by priority when the sort-needed flag
is set (ties keep their prior relative order: every per-priority fibre is
unchanged; with a clear flag no re-ordering happens at all), clears the flag,
and invokes every system in that order; consequently, of two systems whose
priorities satisfy `p1 < p2` at the start of the tick, the first is invoked
strictly before the second. -/
theorem update_invokes_in_priority_order (st : EngineSt) (hr : Reachable st)
    (s1 s2 : Sys) (h1 : s1 ∈ st.systems) (h2 : s2 ∈ st.systems)
    (hp : s1.priority < s2.priority) :
    (∃ i j : Nat, i < j ∧ (Engine.update st).1[i]? = some s1.id ∧
        (Engine.update st).1[j]? = some s2.id) ∧
    (Engine.update st).1 = ((Engine.update st).2.systems).map Sys.id ∧
    List.Sorted sysLe (Engine.update st).2.systems ∧
    (Engine.update st).2.systemsNeedSorting = false ∧
    (∀ p : Int, ((Engine.update st).2.systems).filter (fun t => t.priority == p) =
        st.systems.filter (fun t => t.priority == p)) ∧
    (st.systemsNeedSorting = false → (Engine.update st).2.systems = st.systems) := by
  have hsorted : List.Sorted sysLe (Engine.tickSystems st) := by
    unfold Engine.tickSystems
    split
    · exact List.sorted_insertionSort sysLe _
    · next hflag => exact sorted_of_flag_clear hr (by simpa using hflag)
  have hmem1 : s1 ∈ Engine.tickSystems st := by
    unfold Engine.tickSystems
    split
    · exact ((List.perm_insertionSort sysLe st.systems).mem_iff).mpr h1
    · exact h1
  have hmem2 : s2 ∈ Engine.tickSystems st := by
    unfold Engine.tickSystems
    split
    · exact ((List.perm_insertionSort sysLe st.systems).mem_iff).mpr h2
    · exact h2
  obtain ⟨n1, hn1⟩ := List.get_of_mem hmem1
  obtain ⟨n2, hn2⟩ := List.get_of_mem hmem2
  have hneq : s1 ≠ s2 := by
    intro hss
    rw [hss] at hp
    exact lt_irrefl _ hp
  have hij : (n1 : Nat) < (n2 : Nat) := by
    rcases lt_trichotomy (n1 : Nat) (n2 : Nat) with hlt | heq | hgt
    · exact hlt
    · exact absurd (by rw [← hn1, ← hn2]; exact congrArg _ (Fin.ext heq)) hneq
    · have hrel := List.pairwise_iff_get.mp hsorted n2 n1 hgt
      rw [hn1, hn2] at hrel
      exact absurd hrel (not_le.mpr hp)
  refine ⟨⟨n1, n2, hij, ?_, ?_⟩, ?_, ?_, ?_, ?_, ?_⟩
  · rw [update_eq]
    simp only [List.getElem?_map]
    rw [List.getElem?_eq_getElem n1.isLt, ← List.get_eq_getElem, hn1]
    rfl
  · rw [update_eq]
    simp only [List.getElem?_map]
    rw [List.getElem?_eq_getElem n2.isLt, ← List.get_eq_getElem, hn2]
    rfl
  · rw [update_eq]
  · rw [update_eq]
    exact hsorted
  · rw [update_eq]
  · intro p
    rw [update_eq]
    unfold Engine.tickSystems
    split
    · exact filter_priority_insertionSort p st.systems
    · rfl
  · intro hflag
    rw [update_eq]
    unfold Engine.tickSystems
    rw [if_neg (by simp [hflag])]

/-- A concrete reachable engine for exercising the ordering theorem: two
systems added in descending-priority order, so the tick must re-sort. -/
def c1State : EngineSt :=
  Engine.addSystem (Engine.addSystem (Engine.mkEngine none) ⟨1, 5⟩) ⟨2, -3⟩

theorem update_invokes_in_priority_order_witness :
    ((∃ i j : Nat, i < j ∧ (Engine.update c1State).1[i]? = some (⟨2, -3⟩ : Sys).id ∧
        (Engine.update c1State).1[j]? = some (⟨1, 5⟩ : Sys).id) ∧
    (Engine.update c1State).1 = ((Engine.update c1State).2.systems).map Sys.id ∧
    List.Sorted sysLe (Engine.update c1State).2.systems ∧
    (Engine.update c1State).2.systemsNeedSorting = false ∧
    (∀ p : Int, ((Engine.update c1State).2.systems).filter (fun t => t.priority == p) =
        c1State.systems.filter (fun t => t.priority == p)) ∧
    (c1State.systemsNeedSorting = false → (Engine.update c1State).2.systems = c1State.systems)) :=
  update_invokes_in_priority_order c1State
    (Reachable.addSystem ⟨2, -3⟩ (Reachable.addSystem ⟨1, 5⟩ (Reachable.init none)))
    ⟨2, -3⟩ ⟨1, 5⟩ (by decide) (by decide) (by decide)

/-- Unfolding equation of `resolveNames` at a visible successor fuel. -/
theorem resolveNames_succ (reg : List Blueprint) (fuel : Nat) (visiting : List String)
    (name : String) (rest : List String) :
    resolveNames reg (fuel + 1) visiting (name :: rest) =
      if name ∈ visiting then .error (.cyclicBlueprintInheritance name)
      else
        match findBlueprint reg name with
        | none => .error (.unknownBlueprint name)
        | some bp =>
          match resolveNames reg fuel (name :: visiting) bp.blueprints with
          | .error e => .error e
          | .ok ps =>
            match resolveNames reg fuel visiting rest with
            | .error e => .error e
            | .ok rs => .ok (ps ++ bp.components ++ rs) := rfl

/-- Claim C2: `start` snapshots the blueprint registry of the moment into the
EntityFactory: a blueprint registered afterwards grows the registry but not
the factory, so a subsequent `buildEntity` on its name still fails with
UnknownBlueprint; only re-running the start transition rebuilds the factory
over the grown registry. -/
theorem start_snapshots_blueprints (st : EngineSt) (bp : Blueprint)
    (hdup : bp ∉ st.blueprints)
    (hname : ∀ b ∈ st.blueprints, b.name ≠ bp.name)
    (henum : st.blueprintTypes = none) :
    (Engine.addBlueprint (Engine.start st) bp).entityFactory = some st.blueprints ∧
    (Engine.addBlueprint (Engine.start st) bp).blueprints = st.blueprints ++ [bp] ∧
    Engine.buildEntity (Engine.addBlueprint (Engine.start st) bp) bp.name =
      .error (.unknownBlueprint bp.name) ∧
    (Engine.start (Engine.addBlueprint (Engine.start st) bp)).entityFactory =
      some (st.blueprints ++ [bp]) := by
  have hstep : Engine.addBlueprint (Engine.start st) bp =
      { st with entityFactory := some st.blueprints, blueprints := st.blueprints ++ [bp] } := by
    simp [Engine.start, Engine.addBlueprint, hdup]
  have hfind : findBlueprint st.blueprints bp.name = none := by
    unfold findBlueprint
    exact List.find?_eq_none.mpr (fun b hb => by simpa using hname b hb)
  refine ⟨by rw [hstep], by rw [hstep], ?_, by rw [hstep]; rfl⟩
  rw [hstep]
  unfold Engine.buildEntity
  dsimp only
  rw [henum]
  dsimp only
  unfold factoryBuild
  rw [resolveNames_succ, if_neg (List.not_mem_nil bp.name), hfind]

theorem start_snapshots_blueprints_witness :
    (Engine.addBlueprint (Engine.start ⟨[], [], [], false, [⟨"Base", [], []⟩], none, none⟩)
        ⟨"Extra", [], []⟩).entityFactory = some [⟨"Base", [], []⟩] ∧
    (Engine.addBlueprint (Engine.start ⟨[], [], [], false, [⟨"Base", [], []⟩], none, none⟩)
        ⟨"Extra", [], []⟩).blueprints = [⟨"Base", [], []⟩] ++ [⟨"Extra", [], []⟩] ∧
    Engine.buildEntity
        (Engine.addBlueprint (Engine.start ⟨[], [], [], false, [⟨"Base", [], []⟩], none, none⟩)
          ⟨"Extra", [], []⟩) (Blueprint.name ⟨"Extra", [], []⟩) =
      .error (.unknownBlueprint (Blueprint.name ⟨"Extra", [], []⟩)) ∧
    (Engine.start
        (Engine.addBlueprint (Engine.start ⟨[], [], [], false, [⟨"Base", [], []⟩], none, none⟩)
          ⟨"Extra", [], []⟩)).entityFactory = some ([⟨"Base", [], []⟩] ++ [⟨"Extra", [], []⟩]) :=
  start_snapshots_blueprints ⟨[], [], [], false, [⟨"Base", [], []⟩], none, none⟩
    ⟨"Extra", [], []⟩ (by decide) (by decide) rfl

/-- The enumeration object produced by the TypeScript numeric enum with
members Renderable and Player, as the app's `BlueprintType` is used: member
names map to the numbers 0 and 1, and the generated reverse mapping sends the
keys "0" and "1" back to the member names. -/
def tsNumericEnum : List (String × JsVal) :=
  [("Renderable", .num 0), ("Player", .num 1),
   ("0", .str "Renderable"), ("1", .str "Player")]

/-- A started engine carrying the numeric enumeration and one registered
blueprint. -/
def c3Engine : EngineSt :=
  { entities := [], entityListeners := [], systems := [], systemsNeedSorting := false,
    blueprints := [⟨"Renderable", [⟨"PositionComponent", none⟩], []⟩],
    blueprintTypes := some tsNumericEnum,
    entityFactory := some [⟨"Renderable", [⟨"PositionComponent", none⟩], []⟩] }

/-- Claim C3 counterexample: "Renderable" is a member key of the supplied
enumeration (the lookup succeeds), yet `buildEntity` rejects it with an
InvalidBlueprintType condition, because the member's enum value 0 is falsy
and `if(!this.blueprintTypes[type])` conflates falsy with absent. -/
theorem buildEntity_rejects_member_key :
    (Engine.lookupEnum tsNumericEnum "Renderable").isSome = true ∧
    Engine.buildEntity c3Engine "Renderable" =
      .error (.invalidBlueprintType "Renderable") :=
  ⟨rfl, rfl⟩

/-- Claim C3 amended: with a supplied enumeration, `buildEntity key` fails
with InvalidBlueprintType naming the key exactly when the enumeration lookup
on the key yields no value or a falsy value (such as the member value 0 of a
TypeScript numeric enum); when the lookup yields a truthy value, that value
(as a string) becomes the blueprint name and the call is delegated to the
EntityFactory.  When no enumeration was supplied the key itself is the
blueprint name. -/
theorem buildEntity_validation (st : EngineSt) (key : String) :
    (∀ et, st.blueprintTypes = some et → Engine.lookupEnum et key = none →
      Engine.buildEntity st key = .error (.invalidBlueprintType key)) ∧
    (∀ et v, st.blueprintTypes = some et → Engine.lookupEnum et key = some v →
      v.truthy = false →
      Engine.buildEntity st key = .error (.invalidBlueprintType key)) ∧
    (∀ et v reg, st.blueprintTypes = some et → Engine.lookupEnum et key = some v →
      v.truthy = true → st.entityFactory = some reg →
      Engine.buildEntity st key = factoryBuild reg v.asName) ∧
    (∀ reg, st.blueprintTypes = none → st.entityFactory = some reg →
      Engine.buildEntity st key = factoryBuild reg key) := by
  refine ⟨?_, ?_, ?_, ?_⟩
  · intro et hbt hlk
    unfold Engine.buildEntity
    rw [hbt]
    dsimp only
    rw [hlk]
  · intro et v hbt hlk htr
    unfold Engine.buildEntity
    rw [hbt]
    dsimp only
    rw [hlk]
    dsimp only
    simp [htr]
  · intro et v reg hbt hlk htr hfac
    unfold Engine.buildEntity
    rw [hbt]
    dsimp only
    rw [hlk]
    dsimp only
    rw [htr, hfac]
    rfl
  · intro reg hbt hfac
    unfold Engine.buildEntity
    rw [hbt]
    dsimp only
    rw [hfac]

theorem buildEntity_validation_witness :
    Engine.buildEntity c3Engine "0" =
      factoryBuild [⟨"Renderable", [⟨"PositionComponent", none⟩], []⟩] "Renderable" :=
  (buildEntity_validation c3Engine "0").2.2.1 tsNumericEnum (.str "Renderable")
    [⟨"Renderable", [⟨"PositionComponent", none⟩], []⟩] rfl rfl rfl rfl

/-- Claim C4: two registered blueprints whose parent references form a cycle
(each lists the other as parent) make `buildEntity` fail on either name with
CyclicBlueprintInheritance, with no entity produced; the error arises from
the resolution-path check at a fixed depth, for every sufficiently large
fuel, so the recursion is bounded (no hang or overflow). -/
theorem cyclic_inheritance_detected (a b : String) (ca cb : List BlueprintComponent)
    (hab : a ≠ b) :
    (∀ k : Nat, resolveNames [⟨a, ca, [b]⟩, ⟨b, cb, [a]⟩] (k + 3) [] [a] =
      .error (.cyclicBlueprintInheritance a)) ∧
    (∀ k : Nat, resolveNames [⟨a, ca, [b]⟩, ⟨b, cb, [a]⟩] (k + 3) [] [b] =
      .error (.cyclicBlueprintInheritance b)) ∧
    factoryBuild [⟨a, ca, [b]⟩, ⟨b, cb, [a]⟩] a = .error (.cyclicBlueprintInheritance a) ∧
    factoryBuild [⟨a, ca, [b]⟩, ⟨b, cb, [a]⟩] b = .error (.cyclicBlueprintInheritance b) := by
  have hba : ((a == b : Bool)) = false := beq_eq_false_iff_ne.mpr hab
  have hfa : findBlueprint [⟨a, ca, [b]⟩, ⟨b, cb, [a]⟩] a = some ⟨a, ca, [b]⟩ := by
    simp [findBlueprint]
  have hfb : findBlueprint [⟨a, ca, [b]⟩, ⟨b, cb, [a]⟩] b = some ⟨b, cb, [a]⟩ := by
    simp [findBlueprint, List.find?_cons, hba]
  have main_a : ∀ k : Nat, resolveNames [⟨a, ca, [b]⟩, ⟨b, cb, [a]⟩] (k + 3) [] [a] =
      .error (.cyclicBlueprintInheritance a) := by
    intro k
    rw [show k + 3 = (k + 2) + 1 from rfl, resolveNames_succ,
      if_neg (List.not_mem_nil a), hfa]
    dsimp only
    rw [show k + 2 = (k + 1) + 1 from rfl, resolveNames_succ,
      if_neg (by simp [Ne.symm hab]), hfb]
    dsimp only
    rw [resolveNames_succ, if_pos (by simp)]
  have main_b : ∀ k : Nat, resolveNames [⟨a, ca, [b]⟩, ⟨b, cb, [a]⟩] (k + 3) [] [b] =
      .error (.cyclicBlueprintInheritance b) := by
    intro k
    rw [show k + 3 = (k + 2) + 1 from rfl, resolveNames_succ,
      if_neg (List.not_mem_nil b), hfb]
    dsimp only
    rw [show k + 2 = (k + 1) + 1 from rfl, resolveNames_succ,
      if_neg (by simp [hab]), hfa]
    dsimp only
    rw [resolveNames_succ, if_pos (by simp)]
  refine ⟨main_a, main_b, ?_, ?_⟩
  · unfold factoryBuild
    rw [show ([⟨a, ca, [b]⟩, ⟨b, cb, [a]⟩] : List Blueprint).length + 1 = 0 + 3 from rfl,
      main_a 0]
  · unfold factoryBuild
    rw [show ([⟨a, ca, [b]⟩, ⟨b, cb, [a]⟩] : List Blueprint).length + 1 = 0 + 3 from rfl,
      main_b 0]

theorem cyclic_inheritance_detected_witness :
    (∀ k : Nat, resolveNames [⟨"A", [], ["B"]⟩, ⟨"B", [], ["A"]⟩] (k + 3) [] ["A"] =
      .error (.cyclicBlueprintInheritance "A")) ∧
    (∀ k : Nat, resolveNames [⟨"A", [], ["B"]⟩, ⟨"B", [], ["A"]⟩] (k + 3) [] ["B"] =
      .error (.cyclicBlueprintInheritance "B")) ∧
    factoryBuild [⟨"A", [], ["B"]⟩, ⟨"B", [], ["A"]⟩] "A" =
      .error (.cyclicBlueprintInheritance "A") ∧
    factoryBuild [⟨"A", [], ["B"]⟩, ⟨"B", [], ["A"]⟩] "B" =
      .error (.cyclicBlueprintInheritance "B") :=
  cyclic_inheritance_detected "A" "B" [] [] (by decide)

/-- Claim C5: resolution applies the parent's component list before the
child's own, so the child's entry wins a per-name collision: with parent A
carrying X with payload v1 and child B (parent A) carrying X with payload v2,
the flattened list is parent-then-child and the built entity's X holds v2. -/
theorem child_overrides_parent (v1 v2 : Int) :
    resolveNames [⟨"A", [⟨"X", some v1⟩], []⟩, ⟨"B", [⟨"X", some v2⟩], ["A"]⟩] 3 [] ["B"] =
      .ok [⟨"X", some v1⟩, ⟨"X", some v2⟩] ∧
    ∃ ent : Entity,
      factoryBuild [⟨"A", [⟨"X", some v1⟩], []⟩, ⟨"B", [⟨"X", some v2⟩], ["A"]⟩] "B" =
        .ok ent ∧ getComponent ent "X" = some (some v2) :=
  ⟨rfl, [("X", some v2)], rfl, rfl⟩

end ECS
